import Mathlib

/-!
Verification of the rna-hypergraph-stats statistics and temporal-diff engine.

The repository has two source variants of the statistics class:
`RnaStats.py` (manual conductance over raw incidence) and
`src/rna_stats/forna_rna_stats.py` (secondary-structure diff engine and the
temperature sensitivity analyzer).  A hypergraph is embedded as its incidence
dictionary: an association list from hyperedge id (String) to the list of node
ids the hyperedge spans, in insertion order, exactly the data `hnx.Hypergraph`
is built from.  The node set of the hypergraph is the set of nodes referenced
by some hyperedge, which is how `hypernetx` derives `H.nodes` from an
incidence dictionary.  Fallible Python code (raising exceptions, including
division by zero) is embedded with `Option`: `none` is a raised error.
-/

/-- A hypergraph, embedded as the incidence dictionary it is constructed
from: hyperedge id to the list of member node ids, in insertion order. -/
structure Hypergraph where
  edges : List (String × List Nat)
deriving DecidableEq

/-- The node set of the hypergraph (`self.H.nodes` / `self.HG.nodes` in the
source): the distinct nodes referenced by the hyperedges, as a duplicate-free
list. -/
def nodesOf (H : Hypergraph) : List Nat :=
  ((H.edges.map Prod.snd).flatten).dedup

/-- `len(self.HG.nodes)`: the number of distinct nodes. -/
def nodeCount (H : Hypergraph) : Nat :=
  (nodesOf H).length

/-! ### Conductance calculator (`RnaStats.py`, lines 49-73) -/

/-- `RnaStats.__get_hyperedges(node)`: the hyperedges containing `node`. -/
def get_hyperedges (H : Hypergraph) (node : Nat) : List (String × List Nat) :=
  H.edges.filter (fun e => node ∈ e.2)

/-- `ws` of `get_subset_conductance`: the sum over nodes of the subset of
the number of hyperedges containing that node. -/
def wsOf (H : Hypergraph) (subset : List Nat) : Nat :=
  (subset.map (fun node => (get_hyperedges H node).length)).sum

/-- `was` of `get_subset_conductance`: the loop over all hyperedges that
skips an edge when its vertex set misses `subset` or misses the complement
`subset2 = set(H.nodes) - subset`, and otherwise adds the size of the edge's
vertex set (`len(he_vertices)`, the deduplicated member set). -/
def wasOf (H : Hypergraph) (subset : List Nat) : Nat :=
  let subset2 := (nodesOf H).filter (fun x => x ∉ subset)
  H.edges.foldl (fun was e =>
    let he := e.2.dedup
    if (he.filter (fun v => v ∈ subset)).length = 0 then was
    else if (he.filter (fun v => v ∈ subset2)).length = 0 then was
    else was + he.length) 0

/-- `RnaStats.get_subset_conductance(subset)`: `was / ws` as an exact
rational; the division raises (is `none`) when `ws == 0`. -/
def get_subset_conductance (H : Hypergraph) (subset : List Nat) : Option ℚ :=
  if wsOf H subset = 0 then none
  else some ((wasOf H subset : ℚ) / (wsOf H subset : ℚ))

/-! Specification-side restatement of the §4.1 formula, written from the
spec's words rather than from the loop structure of the source. -/

/-- Spec §4.1 step 2: `ws` = Σ over node ∈ subset of the count of hyperedges
of H that contain the node. -/
def wsSpec (H : Hypergraph) (subset : List Nat) : Nat :=
  (subset.map (fun node => H.edges.countP (fun e => node ∈ e.2))).sum

/-- Spec §4.1 step 3: a hyperedge crosses the cut when its node set
intersects both `subset` and `Nodes(H) - subset`. -/
def crossesCut (H : Hypergraph) (subset : List Nat) (e : String × List Nat) : Prop :=
  (∃ v ∈ e.2, v ∈ subset) ∧ (∃ v ∈ e.2, v ∈ nodesOf H ∧ v ∉ subset)

instance (H : Hypergraph) (subset : List Nat) (e : String × List Nat) :
    Decidable (crossesCut H subset e) := by
  unfold crossesCut; infer_instance

/-- Spec §4.1 step 3: `was` = Σ over every crossing hyperedge of its full
arity (the size of its node set). -/
def wasSpec (H : Hypergraph) (subset : List Nat) : Nat :=
  (H.edges.map (fun e => if crossesCut H subset e then e.2.dedup.length else 0)).sum

/-! ### Structural diff engine (`forna_rna_stats.py`) -/

/-- Python `name.startswith(p)`, computed on the character lists of the
two strings. -/
def strStarts (s p : String) : Bool :=
  p.data.isPrefixOf s.data

/-- `RnaStats.secondary_structures()`: the hyperedges whose id starts with
neither `l` nor `db`. -/
def secondary_structures (H : Hypergraph) : List (String × List Nat) :=
  H.edges.filter (fun e => ¬ strStarts e.1 "l" ∧ ¬ strStarts e.1 "db")

/-- Association-list lookup by key (first matching entry), the embedding of
a Python dict lookup. -/
def alookup {α β : Type} [DecidableEq α] : List (α × β) → α → Option β
  | [], _ => none
  | p :: ps, x => if p.1 = x then some p.2 else alookup ps x

/-- `RnaStats.get_nucleotides_change_structure(hypergraph)`: raises (`none`)
on differing node counts; otherwise for each secondary structure of `H1`, in
order, finds the secondary structure of `H2` with the same id (inner loop
with `break`, i.e. first match) and accumulates the members of the `H1` edge
that are absent from the `H2` edge; the per-edge lists are flattened. -/
def get_nucleotides_change_structure (H1 H2 : Hypergraph) : Option (List Nat) :=
  if nodeCount H1 ≠ nodeCount H2 then none
  else some (((secondary_structures H1).map (fun t =>
    match (secondary_structures H2).find? (fun o => o.1 = t.1) with
    | some o => t.2.filter (fun item => item ∉ o.2)
    | none => [])).flatten)

/-- Spec §4.3 Operation B, written from the spec's words: over the
secondary-structure ids present in both hypergraphs, in `H1` iteration
order, concatenate the nodes of `H1`'s edge absent from `H2`'s edge with
the same id. -/
def nodesChangedSpec (H1 H2 : Hypergraph) : List Nat :=
  ((secondary_structures H1).map (fun t =>
    match alookup (secondary_structures H2) t.1 with
    | some nodes2 => t.2.filter (fun item => item ∉ nodes2)
    | none => [])).flatten

/-- The first character of a hyperedge id (`name[0]` in the source); edge
ids are nonempty strings, the default is never exercised on them. -/
def motifChar (s : String) : Char :=
  s.data.headD 'x'

/-- `defaultdict(int)` increment `counts[k] += 1`: bump the entry of key `k`
in place, or append a fresh entry with count 1. -/
def bumpCount {α : Type} [DecidableEq α] : List (α × Nat) → α → List (α × Nat)
  | [], k => [(k, 1)]
  | p :: ps, k => if p.1 = k then (p.1, p.2 + 1) :: ps else p :: bumpCount ps k

/-- Folding a sequence of keys into a count table, one
`counts[k] += 1` per key occurrence. -/
def addKeys {α : Type} [DecidableEq α] (counts : List (α × Nat)) (ks : List α) :
    List (α × Nat) :=
  ks.foldl bumpCount counts

/-- The count-by-motif-type table of `structure_differences`: for each
secondary structure name, `count[name[0]] += 1`. -/
def buildCount (es : List (String × List Nat)) : List (Char × Nat) :=
  addKeys [] (es.map (fun e => motifChar e.1))

/-- One row of the `structure_differences` result comprehension: key `p.1`
is emitted when present in the other count table with a different count,
with value `this - other`. -/
def diffRow (oc : List (Char × Nat)) (p : Char × Nat) : Option (Char × Int) :=
  match alookup oc p.1 with
  | some o => if p.2 = o then none else some (p.1, (p.2 : Int) - (o : Int))
  | none => none

/-- `RnaStats.structure_differences(hypergraph)`: raises (`none`) on
differing node counts; otherwise builds both motif-type count tables and
keeps, in `this_count` iteration order, the keys present in both tables
whose counts differ, mapped to `this_count[key] - other_count[key]`. -/
def structure_differences (H1 H2 : Hypergraph) : Option (List (Char × Int)) :=
  if nodeCount H1 ≠ nodeCount H2 then none
  else
    let tc := buildCount (secondary_structures H1)
    let oc := buildCount (secondary_structures H2)
    some (tc.filterMap (diffRow oc))

/-- Spec §4.3 Operation A: the number of secondary-structure hyperedges of
`H` whose id has first character `k`. -/
def motifCount (H : Hypergraph) (k : Char) : Nat :=
  (secondary_structures H).countP (fun e => motifChar e.1 = k)

/-! ### Temporal sensitivity analyzer (`forna_rna_stats.py`, TemperatureFoldingStats) -/

/-- Modelled from the spec: the `TemperatureFoldingHypergraph` provider
(`hypergraph_folding.temperature_hypergraph`, not under the sources) per
§4.4/§6 of the spec.  `inst t` is the identity of the snapshot object the
provider returns at temperature `t` (`h1 is h2` in the source is
`inst t = inst t'`), and `snap` maps each identity to its hypergraph; the
priming call `insert_temperature_range` only warms the provider's cache and
has no observable effect on later lookups, so it has no counterpart here. -/
structure TemperatureFoldingHypergraph where
  inst : Int → Nat
  snap : Nat → Hypergraph

/-- `THG.get_hypergraph(temp)`: the snapshot at a temperature. -/
def get_hypergraph (P : TemperatureFoldingHypergraph) (t : Int) : Hypergraph :=
  P.snap (P.inst t)

/-- Python `range(start_temp, end_temp)` over integers. -/
def tempRange (s e : Int) : List Int :=
  (List.range (e - s).toNat).map (fun i => s + i)

/-- The loop body of `get_nucleotide_sensibility_to_changes` over the
remaining temperatures: steps whose two snapshots are the same object
(`h1 is h2`) are skipped; otherwise the nucleotides that changed structure
are computed (propagating its error) and each occurrence increments that
nucleotide's counter. -/
def sensLoop (P : TemperatureFoldingHypergraph) :
    List Int → List (Nat × Nat) → Option (List (Nat × Nat))
  | [], counts => some counts
  | t :: ts, counts =>
    if P.inst t = P.inst (t + 1) then sensLoop P ts counts
    else
      match get_nucleotides_change_structure (get_hypergraph P t) (get_hypergraph P (t + 1)) with
      | none => none
      | some elements => sensLoop P ts (addKeys counts elements)

/-- `TemperatureFoldingStats.get_nucleotide_sensibility_to_changes`:
the counter mapping accumulated over `range(start_temp, end_temp)`,
starting from an empty `defaultdict(int)`. -/
def get_nucleotide_sensibility_to_changes (P : TemperatureFoldingHypergraph)
    (start_temp end_temp : Int) : Option (List (Nat × Nat)) :=
  sensLoop P (tempRange start_temp end_temp) []

/-- The per-step diff list at temperature step `t` (empty when the
comparison would raise), used to state the sensitivity counts. -/
def changedAt (P : TemperatureFoldingHypergraph) (t : Int) : List Nat :=
  (get_nucleotides_change_structure (get_hypergraph P t) (get_hypergraph P (t + 1))).getD []

/-- The total multiplicity with which node `x` appears across the per-step
diffs of the sweep: identity-shared steps contribute zero, every other step
contributes the number of occurrences of `x` in its diff list. -/
def sensMultiplicity (P : TemperatureFoldingHypergraph) (s e : Int) (x : Nat) : Nat :=
  ((tempRange s e).map (fun t =>
    if P.inst t = P.inst (t + 1) then 0 else (changedAt P t).countP (fun y => y = x))).sum

/-- The number of temperature-step transitions of the sweep at which node
`x` changed structural membership (each step counted at most once): the
quantity the spec's sensitivity claim describes. -/
def sensTransitions (P : TemperatureFoldingHypergraph) (s e : Int) (x : Nat) : Nat :=
  ((tempRange s e).map (fun t =>
    if P.inst t = P.inst (t + 1) then 0
    else if x ∈ changedAt P t then 1 else 0)).sum

/-! ### Partition accessors -/

/-- `RnaStats.partition(n)` (both source variants): `self.__partitions[n]`
with CPython list indexing, which accepts negative indices down to
`-len` and raises IndexError (`none`) beyond either end.  The partitioning
itself is produced by the external `hmod.kumar` collaborator and is a
parameter. -/
def partition (parts : List (List Nat)) (n : Int) : Option (List Nat) :=
  if 0 ≤ n then parts[n.toNat]?
  else if 0 ≤ (parts.length : Int) + n then parts[((parts.length : Int) + n).toNat]?
  else none

/-- `RnaStats.partitions_conductance()` (forna variant): the list of
subset conductances of the partitions, in partitioning order; the subset
conductance is delegated to the external `hmod.conductance` and is a
parameter. -/
def partitions_conductance (cond : List Nat → ℚ) (parts : List (List Nat)) : List ℚ :=
  parts.map cond

/-- `RnaStats.get_partitions_conductance()` (`RnaStats.py` variant):
`enumerate([...])`, the same conductances paired with their partition
index. -/
def get_partitions_conductance (cond : List Nat → ℚ) (parts : List (List Nat)) :
    List (Nat × ℚ) :=
  (parts.map cond).enum

/-! ### Concrete instances used by the examples of the spec -/

/-- The conductance scenario of spec §8: hyperedges `e1 = {1,2,3}` and
`e2 = {2,4}`. -/
def Hc1 : Hypergraph := ⟨[("e1", [1, 2, 3]), ("e2", [2, 4])]⟩

/-- Spec §8 diff scenario, first folding: secondary structures
`s1 = {1,2,3}`, `s2 = {4,5}`, with a backbone edge giving 6 nodes. -/
def H1ex : Hypergraph := ⟨[("s1", [1, 2, 3]), ("s2", [4, 5]), ("l0", [1, 2, 3, 4, 5, 6])]⟩

/-- Spec §8 diff scenario, second folding: secondary structures
`s1 = {1,2}`, `s2 = {4,5,6}`, with the same backbone edge. -/
def H2ex : Hypergraph := ⟨[("s1", [1, 2]), ("s2", [4, 5, 6]), ("l0", [1, 2, 3, 4, 5, 6])]⟩

/-- A folding with one `s`-type and one `h`-type motif on 3 nodes. -/
def H3ex : Hypergraph := ⟨[("s1", [1, 2]), ("h1", [3]), ("l0", [1, 2, 3])]⟩

/-- A folding with two `s`-type motifs on the same 3 nodes. -/
def H4ex : Hypergraph := ⟨[("s1", [1, 2]), ("s2", [3]), ("l0", [1, 2, 3])]⟩

/-- A hypergraph with 5 nodes, for the size-mismatch example. -/
def H5ex : Hypergraph := ⟨[("l0", [1, 2, 3, 4, 5])]⟩

/-- A hypergraph with 7 nodes, for the size-mismatch example. -/
def H7ex : Hypergraph := ⟨[("l0", [1, 2, 3, 4, 5, 6, 7])]⟩

/-- A folding in which node 1 belongs to the two motifs `s1` and `s2`. -/
def HsnapA : Hypergraph := ⟨[("s1", [1, 2]), ("s2", [1, 3]), ("l0", [1, 2, 3])]⟩

/-- The same folding after node 1 left both motifs. -/
def HsnapB : Hypergraph := ⟨[("s1", [2]), ("s2", [3]), ("l0", [1, 2, 3])]⟩

/-- A provider whose snapshot changes from `HsnapA` to `HsnapB` between
temperature 0 and temperature 1 (distinct instances from 1 on). -/
def Pex : TemperatureFoldingHypergraph :=
  ⟨fun t => if t = 0 then 0 else 1, fun i => if i = 0 then HsnapA else HsnapB⟩

/-- A concrete stand-in for the delegated subset-conductance function. -/
def condEx : List Nat → ℚ := fun s => (s.length : ℚ) / 2

/-- C5: when the two hypergraphs have different node counts, both
`structure_differences` and `get_nucleotides_change_structure` raise the
size-mismatch error (`none`) instead of returning a result. -/
theorem claim_C5 (H1 H2 : Hypergraph) (h : nodeCount H1 ≠ nodeCount H2) :
    structure_differences H1 H2 = none ∧ get_nucleotides_change_structure H1 H2 = none := by
  constructor <;> simp [structure_differences, get_nucleotides_change_structure, h]

theorem claim_C5_witness :
    structure_differences H5ex H7ex = none ∧ get_nucleotides_change_structure H5ex H7ex = none :=
  claim_C5 H5ex H7ex (by decide)

/-- C6: when the degree sum `ws` of the subset is zero (empty subset or
nodes in no hyperedge), `get_subset_conductance` signals the domain error
(`none`) rather than producing a value. -/
theorem claim_C6 (H : Hypergraph) (subset : List Nat) (h : wsOf H subset = 0) :
    get_subset_conductance H subset = none := by
  simp [get_subset_conductance, h]

theorem claim_C6_witness : get_subset_conductance Hc1 [] = none :=
  claim_C6 Hc1 [] (by decide)

/-- C8: `partitions_conductance` has the length of the partitioning and
its i-th element is the subset conductance of the i-th partition, in
partitioning order; the `get_partitions_conductance` variant returns the
same conductances enumerated, its i-th element carrying index i. -/
theorem claim_C8 (cond : List Nat → ℚ) (parts : List (List Nat)) :
    (partitions_conductance cond parts).length = parts.length ∧
    (∀ i : Nat, (partitions_conductance cond parts)[i]? = (parts[i]?).map cond) ∧
    (get_partitions_conductance cond parts).length = parts.length ∧
    (∀ i : Nat, (get_partitions_conductance cond parts)[i]? =
      (parts[i]?).map (fun p => (i, cond p))) := by
  refine ⟨List.length_map _ _, fun i => List.getElem?_map _ _ _, ?_, fun i => ?_⟩
  · simp [get_partitions_conductance]
  · simp only [get_partitions_conductance, List.getElem?_enum, List.getElem?_map,
      Option.map_map]
    cases parts[i]? <;> rfl

theorem claim_C8_witness :
    (partitions_conductance condEx [[1], [2, 3]]).length = 2 ∧
    (partitions_conductance condEx [[1], [2, 3]])[1]? =
      ([[1], [2, 3]][1]? : Option (List Nat)).map condEx :=
  ⟨(claim_C8 condEx [[1], [2, 3]]).1, (claim_C8 condEx [[1], [2, 3]]).2.1 1⟩

/-- Counterexample to C9 as stated: `partition(-1)` on a 2-element
partitioning returns the last partition by Python negative indexing
instead of raising the out-of-range error. -/
theorem claim_C9_counterexample :
    partition [[1], [2]] (-1) = some [2] ∧ partition [[1], [2]] (-1) ≠ none := by
  constructor <;> decide

/-- C9 amended: `partition(n)` returns `partitions()[n]` for n in
[0, len), raises the out-of-range error only for n >= len or n < -len,
and returns `partitions()[len + n]` for n in [-len, 0) (Python negative
indexing). -/
theorem claim_C9_amended (parts : List (List Nat)) (n : Int) :
    (0 ≤ n ∧ n < parts.length → partition parts n = parts[n.toNat]?) ∧
    ((parts.length : Int) ≤ n ∨ n < -(parts.length : Int) → partition parts n = none) ∧
    (-(parts.length : Int) ≤ n ∧ n < 0 →
      partition parts n = parts[((parts.length : Int) + n).toNat]?) := by
  refine ⟨fun h => ?_, fun h => ?_, fun h => ?_⟩
  · simp [partition, h.1]
  · rcases h with h | h
    · have h0 : 0 ≤ n := by omega
      have hlen : parts.length ≤ n.toNat := by omega
      simp [partition, h0, List.getElem?_eq_none hlen]
    · have h0 : ¬ 0 ≤ n := by omega
      have h1 : ¬ 0 ≤ (parts.length : Int) + n := by omega
      simp [partition, h0, h1]
  · have h0 : ¬ 0 ≤ n := by omega
    have h1 : 0 ≤ (parts.length : Int) + n := by omega
    simp [partition, h0, h1]

theorem claim_C9_amended_witness :
    partition [[1], [2]] (-1) = [[1], [2]][(((2 : Nat) : Int) + -1).toNat]? :=
  (claim_C9_amended [[1], [2]] (-1)).2.2 (by constructor <;> decide)

/-! ### Count-table lemmas -/

theorem alookup_bumpCount {α : Type} [DecidableEq α] (m : List (α × Nat)) (k x : α) :
    alookup (bumpCount m k) x =
      if x = k then some ((alookup m k).getD 0 + 1) else alookup m x := by
  induction m with
  | nil =>
    by_cases hxk : x = k
    · simp [bumpCount, alookup, hxk]
    · have hkx : ¬ k = x := fun h => hxk h.symm
      simp [bumpCount, alookup, hxk, hkx]
  | cons p ps ih =>
    by_cases hpk : p.1 = k
    · by_cases hxk : x = k
      · subst hxk
        simp [bumpCount, alookup, hpk]
      · have hpx : ¬ p.1 = x := fun h => hxk (h ▸ hpk)
        have hkx : ¬ k = x := fun h => hxk h.symm
        simp [bumpCount, alookup, hpk, hpx, hxk, hkx]
    · by_cases hpx : p.1 = x
      · have hxk : ¬ x = k := fun h => hpk (hpx.trans h)
        simp [bumpCount, alookup, hpk, hpx, hxk]
      · simp [bumpCount, alookup, hpk, hpx, ih]

theorem alookup_addKeys_none {α : Type} [DecidableEq α] (ks : List α)
    (m : List (α × Nat)) (x : α) :
    alookup (addKeys m ks) x = none ↔
      alookup m x = none ∧ ks.countP (fun y => y = x) = 0 := by
  induction ks generalizing m with
  | nil => simp [addKeys]
  | cons k ks ih =>
    have hstep : addKeys m (k :: ks) = addKeys (bumpCount m k) ks := rfl
    rw [hstep, ih, alookup_bumpCount]
    by_cases hxk : x = k
    · simp [hxk, List.countP_cons]
    · have hkx : ¬ k = x := fun h => hxk h.symm
      simp [hxk, hkx, List.countP_cons]

theorem getD_alookup_addKeys {α : Type} [DecidableEq α] (ks : List α)
    (m : List (α × Nat)) (x : α) :
    (alookup (addKeys m ks) x).getD 0 =
      (alookup m x).getD 0 + ks.countP (fun y => y = x) := by
  induction ks generalizing m with
  | nil => simp [addKeys]
  | cons k ks ih =>
    have hstep : addKeys m (k :: ks) = addKeys (bumpCount m k) ks := rfl
    rw [hstep, ih, alookup_bumpCount]
    by_cases hxk : x = k
    · subst hxk
      simp [List.countP_cons]
      omega
    · have hkx : ¬ k = x := fun h => hxk h.symm
      simp [hxk, hkx, List.countP_cons]

/-- A key of the motif-type count table is present iff its count is
positive, and its value is then the number of hyperedges whose id starts
with it. -/
theorem alookup_buildCount (es : List (String × List Nat)) (k : Char) :
    alookup (buildCount es) k =
      if es.countP (fun e => motifChar e.1 = k) = 0 then none
      else some (es.countP (fun e => motifChar e.1 = k)) := by
  have hcnt : (es.map (fun e => motifChar e.1)).countP (fun y => y = k) =
      es.countP (fun e => motifChar e.1 = k) := by
    rw [List.countP_map]
    rfl
  have hnone := alookup_addKeys_none (es.map (fun e => motifChar e.1)) [] k
  have hgd := getD_alookup_addKeys (es.map (fun e => motifChar e.1)) [] k
  simp only [buildCount]
  by_cases h : es.countP (fun e => motifChar e.1 = k) = 0
  · rw [if_pos h]
    exact hnone.2 ⟨rfl, by rw [hcnt]; exact h⟩
  · rw [if_neg h]
    cases hlook : alookup (addKeys [] (es.map (fun e => motifChar e.1))) k with
    | none =>
      exact absurd (by rw [← hcnt]; exact (hnone.1 hlook).2) h
    | some v =>
      rw [hlook, hcnt] at hgd
      simp only [alookup, Option.getD_some, Option.getD_none] at hgd
      rw [hgd]
      simp

theorem diffRow_key (oc : List (Char × Nat)) (p : Char × Nat) (q : Char × Int)
    (h : diffRow oc p = some q) : q.1 = p.1 := by
  unfold diffRow at h
  split at h
  · split at h
    · exact absurd h (by simp)
    · rw [← Option.some.inj h]
  · exact absurd h (by simp)

theorem alookup_filterMap_diffRow_not_mem (oc : List (Char × Nat))
    (m : List (Char × Nat)) (x : Char) (hx : x ∉ m.map Prod.fst) :
    alookup (m.filterMap (diffRow oc)) x = none := by
  induction m with
  | nil => simp [alookup]
  | cons p ps ih =>
    have hx1 : ¬ p.1 = x := fun h => hx (by simp [h])
    have hx2 : x ∉ ps.map Prod.fst := fun h => hx (by simp [h])
    rw [List.filterMap_cons]
    cases hrow : diffRow oc p with
    | none => exact ih hx2
    | some q =>
      have hq := diffRow_key oc p q hrow
      simp only [alookup, hq, if_neg hx1]
      exact ih hx2

theorem alookup_filterMap_diffRow (oc : List (Char × Nat)) (m : List (Char × Nat))
    (x : Char) (hnd : (m.map Prod.fst).Nodup) :
    alookup (m.filterMap (diffRow oc)) x =
      (alookup m x).bind (fun v => (diffRow oc (x, v)).map Prod.snd) := by
  induction m with
  | nil => simp [alookup]
  | cons p ps ih =>
    rw [List.map_cons] at hnd
    have hnd' := List.nodup_cons.mp hnd
    by_cases hpx : p.1 = x
    · subst hpx
      have hps : alookup (List.filterMap (diffRow oc) ps) p.1 = none :=
        alookup_filterMap_diffRow_not_mem oc ps p.1 hnd'.1
      cases hrow : diffRow oc p with
      | none => simp [List.filterMap_cons, hrow, alookup, hps, Prod.mk.eta]
      | some q =>
        have hq := diffRow_key oc p q hrow
        simp [List.filterMap_cons, hrow, alookup, hq, Prod.mk.eta]
    · cases hrow : diffRow oc p with
      | none => simp [List.filterMap_cons, hrow, alookup, hpx, ih hnd'.2]
      | some q =>
        have hq := diffRow_key oc p q hrow
        simp [List.filterMap_cons, hrow, alookup, hq, hpx, ih hnd'.2]

theorem bumpCount_keys {α : Type} [DecidableEq α] (m : List (α × Nat)) (k : α) :
    (bumpCount m k).map Prod.fst =
      if k ∈ m.map Prod.fst then m.map Prod.fst else m.map Prod.fst ++ [k] := by
  induction m with
  | nil => simp [bumpCount]
  | cons p ps ih =>
    by_cases hpk : p.1 = k
    · simp [bumpCount, hpk]
    · have hkp : ¬ k = p.1 := fun h => hpk h.symm
      by_cases hmem : k ∈ ps.map Prod.fst
      · simp [bumpCount, hpk, hkp, hmem, ih]
      · simp [bumpCount, hpk, hkp, hmem, ih]

theorem addKeys_keys_nodup {α : Type} [DecidableEq α] (ks : List α)
    (m : List (α × Nat)) (hnd : (m.map Prod.fst).Nodup) :
    ((addKeys m ks).map Prod.fst).Nodup := by
  induction ks generalizing m with
  | nil => exact hnd
  | cons k ks ih =>
    have hstep : addKeys m (k :: ks) = addKeys (bumpCount m k) ks := rfl
    rw [hstep]
    refine ih _ ?_
    rw [bumpCount_keys]
    by_cases hmem : k ∈ m.map Prod.fst
    · simpa [hmem] using hnd
    · rw [if_neg hmem]
      simpa [List.nodup_append, hmem] using hnd

theorem alookup_eq_find? {α β : Type} [DecidableEq α] (l : List (α × β)) (k : α) :
    alookup l k = (l.find? (fun o => o.1 = k)).map Prod.snd := by
  induction l with
  | nil => rfl
  | cons p ps ih =>
    by_cases hp : p.1 = k
    · simp [alookup, List.find?_cons, hp]
    · simp [alookup, List.find?_cons, hp, ih]

/-- C2: under equal node counts, `get_nucleotides_change_structure`
returns exactly the spec §4.3 Operation B sequence, and on the §8 scenario
returns `[3]`. -/
theorem claim_C2 (H1 H2 : Hypergraph) (h : nodeCount H1 = nodeCount H2) :
    get_nucleotides_change_structure H1 H2 = some (nodesChangedSpec H1 H2) ∧
    get_nucleotides_change_structure H1ex H2ex = some [3] := by
  refine ⟨?_, by decide⟩
  rw [get_nucleotides_change_structure, if_neg (by simp [h]), nodesChangedSpec]
  congr 1
  refine congrArg List.flatten (List.map_congr_left fun t _ => ?_)
  rw [alookup_eq_find?]
  cases hf : (secondary_structures H2).find? (fun o => o.1 = t.1) <;> rfl

theorem claim_C2_witness :
    get_nucleotides_change_structure H1ex H2ex = some (nodesChangedSpec H1ex H2ex) :=
  (claim_C2 H1ex H2ex (by decide)).1

/-- C10: every node in the result of `get_nucleotides_change_structure`
belongs to some secondary-structure hyperedge of `H1`, hence to
`Nodes(H1)`; no node is taken from `H2` only. -/
theorem claim_C10 (H1 H2 : Hypergraph) (h : nodeCount H1 = nodeCount H2)
    (l : List Nat) (hres : get_nucleotides_change_structure H1 H2 = some l) :
    ∀ x ∈ l, (∃ e ∈ secondary_structures H1, x ∈ e.2) ∧ x ∈ nodesOf H1 := by
  intro x hx
  rw [get_nucleotides_change_structure, if_neg (by simp [h])] at hres
  rw [← Option.some.inj hres] at hx
  rw [List.mem_flatten] at hx
  obtain ⟨s, hs, hxs⟩ := hx
  rw [List.mem_map] at hs
  obtain ⟨t, ht, rfl⟩ := hs
  have hxt : x ∈ t.2 := by
    cases hf : (secondary_structures H2).find? (fun o => o.1 = t.1) with
    | none => rw [hf] at hxs; simp at hxs
    | some o =>
      rw [hf] at hxs
      exact (List.mem_filter.1 hxs).1
  refine ⟨⟨t, ht, hxt⟩, ?_⟩
  have ht' : t ∈ H1.edges := (List.mem_filter.1 ht).1
  rw [nodesOf, List.mem_dedup, List.mem_flatten]
  exact ⟨t.2, List.mem_map.2 ⟨t, ht', rfl⟩, hxt⟩

theorem claim_C10_witness :
    (∃ e ∈ secondary_structures H1ex, 3 ∈ e.2) ∧ 3 ∈ nodesOf H1ex :=
  claim_C10 H1ex H2ex (by decide) [3] (by decide) 3 (by decide)

theorem wsOf_eq_wsSpec (H : Hypergraph) (S : List Nat) : wsOf H S = wsSpec H S := by
  simp [wsOf, wsSpec, get_hyperedges, List.countP_eq_length_filter]

theorem filter_length_zero_iff (l : List Nat) (p : Nat → Prop) [DecidablePred p] :
    (l.filter (fun v => p v)).length = 0 ↔ ¬ ∃ v ∈ l, p v := by
  rw [List.length_eq_zero, List.filter_eq_nil_iff]
  simp

theorem wasStep (H : Hypergraph) (S : List Nat) (e : String × List Nat) (was : Nat) :
    (if ((e.2.dedup).filter (fun v => v ∈ S)).length = 0 then was
     else if ((e.2.dedup).filter (fun v => v ∈ (nodesOf H).filter (fun x => x ∉ S))).length = 0
       then was
     else was + (e.2.dedup).length) =
    was + (if crossesCut H S e then (e.2.dedup).length else 0) := by
  by_cases h1 : ∃ v ∈ e.2, v ∈ S
  · rw [if_neg (by
      rw [filter_length_zero_iff]
      simp only [List.mem_dedup]
      exact fun hc => hc h1)]
    by_cases h2 : ∃ v ∈ e.2, v ∈ nodesOf H ∧ v ∉ S
    · rw [if_neg (by
        rw [filter_length_zero_iff]
        simp only [List.mem_dedup, List.mem_filter, decide_not, Bool.not_eq_true',
          decide_eq_false_iff_not]
        exact fun hc => hc h2), if_pos ⟨h1, h2⟩]
    · rw [if_pos (by
        rw [filter_length_zero_iff]
        simp only [List.mem_dedup, List.mem_filter, decide_not, Bool.not_eq_true',
          decide_eq_false_iff_not]
        exact h2), if_neg (fun hc => h2 hc.2)]
      simp
  · rw [if_pos (by
      rw [filter_length_zero_iff]
      simp only [List.mem_dedup]
      exact h1), if_neg (fun hc => h1 hc.1)]
    simp

theorem wasOf_eq_wasSpec (H : Hypergraph) (S : List Nat) : wasOf H S = wasSpec H S := by
  unfold wasOf wasSpec
  suffices hgen : ∀ (l : List (String × List Nat)) (n : Nat),
      l.foldl (fun was e =>
        let he := e.2.dedup
        if (he.filter (fun v => v ∈ S)).length = 0 then was
        else if (he.filter (fun v => v ∈ (nodesOf H).filter (fun x => x ∉ S))).length = 0 then was
        else was + he.length) n =
      n + (l.map (fun e => if crossesCut H S e then e.2.dedup.length else 0)).sum by
    simpa using hgen H.edges 0
  intro l
  induction l with
  | nil => simp
  | cons e es ih =>
    intro n
    rw [List.foldl_cons, List.map_cons, List.sum_cons]
    show (List.foldl _ (if ((e.2.dedup).filter (fun v => v ∈ S)).length = 0 then n
      else if ((e.2.dedup).filter (fun v => v ∈ (nodesOf H).filter (fun x => x ∉ S))).length = 0
        then n
      else n + (e.2.dedup).length) es) = _
    rw [ih, wasStep]
    omega

/-- C1: `get_subset_conductance` computes exactly `was / ws` as the spec
§4.1 defines the two quantities, and on the spec §8 example with
`S = {1,2}`, `e1 = {1,2,3}`, `e2 = {2,4}` it returns `5/3`. -/
theorem claim_C1 (H : Hypergraph) (S : List Nat) (_hnd : S.Nodup)
    (_hsub : ∀ x ∈ S, x ∈ nodesOf H) (hws : wsOf H S ≠ 0) :
    get_subset_conductance H S = some ((wasSpec H S : ℚ) / (wsSpec H S : ℚ)) ∧
    get_subset_conductance Hc1 [1, 2] = some (5 / 3) := by
  constructor
  · rw [get_subset_conductance, if_neg hws, wsOf_eq_wsSpec, wasOf_eq_wasSpec]
  · have h1 : wasOf Hc1 [1, 2] = 5 := by decide
    have h2 : wsOf Hc1 [1, 2] = 3 := by decide
    rw [get_subset_conductance, if_neg (by decide), h1, h2]
    norm_num

theorem claim_C1_witness :
    get_subset_conductance Hc1 [1, 2] =
      some ((wasSpec Hc1 [1, 2] : ℚ) / (wsSpec Hc1 [1, 2] : ℚ)) :=
  (claim_C1 Hc1 [1, 2] (by decide) (by decide) (by decide)).1

/-- Characterization of the sensitivity loop: when every non-identity step
compares snapshots of equal node count, the loop succeeds and each node's
final count is its count in the incoming table plus its total multiplicity
across the per-step diff lists; a node is absent iff it was absent before
and has multiplicity zero. -/
theorem sensLoop_char (P : TemperatureFoldingHypergraph) (ts : List Int)
    (m : List (Nat × Nat))
    (hok : ∀ t ∈ ts, P.inst t ≠ P.inst (t + 1) →
      (get_nucleotides_change_structure (get_hypergraph P t) (get_hypergraph P (t + 1))).isSome) :
    ∃ r, sensLoop P ts m = some r ∧ ∀ x : Nat,
      ((alookup r x).getD 0 = (alookup m x).getD 0 +
        (ts.map (fun t => if P.inst t = P.inst (t + 1) then 0
          else (changedAt P t).countP (fun y => y = x))).sum) ∧
      (alookup r x = none ↔ alookup m x = none ∧
        (ts.map (fun t => if P.inst t = P.inst (t + 1) then 0
          else (changedAt P t).countP (fun y => y = x))).sum = 0) := by
  induction ts generalizing m with
  | nil => exact ⟨m, rfl, fun x => ⟨by simp, by simp⟩⟩
  | cons t ts ih =>
    by_cases hid : P.inst t = P.inst (t + 1)
    · obtain ⟨r, hr, hchar⟩ := ih m (fun u hu => hok u (List.mem_cons_of_mem _ hu))
      refine ⟨r, ?_, fun x => ?_⟩
      · rw [show sensLoop P (t :: ts) m = sensLoop P ts m from by simp [sensLoop, hid]]
        exact hr
      · constructor
        · rw [(hchar x).1, List.map_cons, List.sum_cons, if_pos hid, Nat.zero_add]
        · rw [(hchar x).2, List.map_cons, List.sum_cons, if_pos hid, Nat.zero_add]
    · have hsome := hok t (List.mem_cons_self _ _) hid
      obtain ⟨elements, helems⟩ := Option.isSome_iff_exists.1 hsome
      have hch : changedAt P t = elements := by rw [changedAt, helems]; rfl
      obtain ⟨r, hr, hchar⟩ :=
        ih (addKeys m elements) (fun u hu => hok u (List.mem_cons_of_mem _ hu))
      refine ⟨r, ?_, fun x => ?_⟩
      · rw [show sensLoop P (t :: ts) m = sensLoop P ts (addKeys m elements) from by
          simp [sensLoop, hid, helems]]
        exact hr
      · constructor
        · rw [(hchar x).1, getD_alookup_addKeys, List.map_cons, List.sum_cons,
            if_neg hid, hch]
          omega
        · rw [(hchar x).2, alookup_addKeys_none, List.map_cons, List.sum_cons,
            if_neg hid, hch, Nat.add_eq_zero, and_assoc]

/-- Counterexample to C3 as stated: over the one-step sweep of `Pex` node 1
leaves the two motifs `s1` and `s2` at the single transition, so its
recorded sensitivity is 2 although the number of transitions at which it
changed is 1. -/
theorem claim_C3_counterexample :
    get_nucleotide_sensibility_to_changes Pex 0 1 = some [(1, 2)] ∧
    alookup ((get_nucleotide_sensibility_to_changes Pex 0 1).getD []) 1 = some 2 ∧
    sensTransitions Pex 0 1 1 = 1 ∧ (2 : Nat) ≠ 1 := by
  refine ⟨by decide, by decide, by decide, by decide⟩

/-- C3 amended: each node's value is the total multiplicity of the node
across the per-step diff lists (a node changing membership in k motifs at
one step adds k, not 1); identity-shared steps contribute zero, nodes of
multiplicity zero are absent, and a zero-width sweep yields the empty
mapping. -/
theorem claim_C3_amended (P : TemperatureFoldingHypergraph) (s e : Int)
    (_hse : s ≤ e)
    (hok : ∀ t ∈ tempRange s e, P.inst t ≠ P.inst (t + 1) →
      (get_nucleotides_change_structure (get_hypergraph P t) (get_hypergraph P (t + 1))).isSome) :
    ∃ r, get_nucleotide_sensibility_to_changes P s e = some r ∧
      (∀ x : Nat, alookup r x =
        if sensMultiplicity P s e x = 0 then none else some (sensMultiplicity P s e x)) ∧
      get_nucleotide_sensibility_to_changes P s s = some [] := by
  obtain ⟨r, hr, hchar⟩ := sensLoop_char P (tempRange s e) [] hok
  refine ⟨r, hr, fun x => ?_, ?_⟩
  · have h1 := (hchar x).1
    have h2 := (hchar x).2
    rw [show (alookup ([] : List (Nat × Nat)) x).getD 0 = 0 from rfl, Nat.zero_add] at h1
    by_cases h0 : sensMultiplicity P s e x = 0
    · rw [if_pos h0]
      exact h2.2 ⟨rfl, h0⟩
    · rw [if_neg h0]
      cases hl : alookup r x with
      | none => exact absurd ((h2.1 hl).2) h0
      | some v =>
        rw [hl] at h1
        rw [show (some v).getD 0 = v from rfl] at h1
        rw [h1]
        rfl
  · rw [get_nucleotide_sensibility_to_changes,
      show tempRange s s = [] from by simp [tempRange]]
    rfl

theorem claim_C3_amended_witness :
    alookup ((get_nucleotide_sensibility_to_changes Pex 0 1).getD []) 1 = some 2 := by
  obtain ⟨r, hr, hchar, hzero⟩ := claim_C3_amended Pex 0 1 (by decide) (by decide)
  rw [hr, Option.getD_some, hchar 1, if_neg (by decide)]
  decide

/-- Shared characterization of `structure_differences`: under equal node
counts it succeeds, and its result maps a motif type `k` to
`motifCount H1 k - motifCount H2 k` exactly when the type occurs on both
sides with different counts, and omits it otherwise. -/
theorem structure_differences_lookup (H1 H2 : Hypergraph)
    (h : nodeCount H1 = nodeCount H2) (k : Char) :
    alookup ((structure_differences H1 H2).getD []) k =
      (if motifCount H1 k ≠ 0 ∧ motifCount H2 k ≠ 0 ∧ motifCount H1 k ≠ motifCount H2 k
        then some ((motifCount H1 k : Int) - (motifCount H2 k : Int)) else none) ∧
    (structure_differences H1 H2).isSome := by
  have hsd : structure_differences H1 H2 =
      some ((buildCount (secondary_structures H1)).filterMap
        (diffRow (buildCount (secondary_structures H2)))) := by
    simp [structure_differences, h]
  refine ⟨?_, by rw [hsd]; rfl⟩
  rw [hsd]
  have hnd : ((buildCount (secondary_structures H1)).map Prod.fst).Nodup :=
    addKeys_keys_nodup _ [] (by simp)
  rw [Option.getD_some, alookup_filterMap_diffRow _ _ _ hnd, alookup_buildCount]
  simp only [motifCount]
  by_cases h1 : (secondary_structures H1).countP (fun e => motifChar e.1 = k) = 0
  · simp [h1]
  · rw [if_neg h1, Option.some_bind]
    unfold diffRow
    simp only [alookup_buildCount]
    by_cases h2 : (secondary_structures H2).countP (fun e => motifChar e.1 = k) = 0
    · simp [h2]
    · rw [if_neg h2]
      by_cases heq : (secondary_structures H1).countP (fun e => motifChar e.1 = k) =
          (secondary_structures H2).countP (fun e => motifChar e.1 = k)
      · simp [heq]
      · simp [heq, h1, h2]

/-- C4: `structure_differences` maps each motif type present in both
count-by-motif-type tables with differing counts to
`count_in_H1 - count_in_H2`, excludes one-sided types and types with equal
counts, and yields the empty mapping on the §8 scenario. -/
theorem claim_C4 (H1 H2 : Hypergraph) (h : nodeCount H1 = nodeCount H2) :
    (structure_differences H1 H2).isSome ∧
    (∀ k : Char, alookup ((structure_differences H1 H2).getD []) k =
      (if motifCount H1 k ≠ 0 ∧ motifCount H2 k ≠ 0 ∧ motifCount H1 k ≠ motifCount H2 k
        then some ((motifCount H1 k : Int) - (motifCount H2 k : Int)) else none)) ∧
    structure_differences H1ex H2ex = some [] :=
  ⟨(structure_differences_lookup H1 H2 h 'a').2,
   fun k => (structure_differences_lookup H1 H2 h k).1, by decide⟩

theorem claim_C4_witness : structure_differences H1ex H2ex = some [] :=
  (claim_C4 H1ex H2ex (by decide)).2.2

/-- C7: antisymmetry of `structure_differences` under equal node counts:
both orders succeed, and for every motif key the two results agree up to
negation (hence have the same key set). -/
theorem claim_C7 (H1 H2 : Hypergraph) (h : nodeCount H1 = nodeCount H2) :
    (structure_differences H1 H2).isSome ∧ (structure_differences H2 H1).isSome ∧
    ∀ k : Char, alookup ((structure_differences H2 H1).getD []) k =
      (alookup ((structure_differences H1 H2).getD []) k).map (fun v => -v) := by
  refine ⟨(structure_differences_lookup H1 H2 h 'a').2,
    (structure_differences_lookup H2 H1 h.symm 'a').2, fun k => ?_⟩
  rw [(structure_differences_lookup H1 H2 h k).1,
    (structure_differences_lookup H2 H1 h.symm k).1]
  by_cases h1 : motifCount H1 k ≠ 0 ∧ motifCount H2 k ≠ 0 ∧ motifCount H1 k ≠ motifCount H2 k
  · rw [if_pos h1, if_pos ⟨h1.2.1, h1.1, fun hc => h1.2.2 hc.symm⟩]
    simp [neg_sub]
  · rw [if_neg h1, if_neg (fun hc => h1 ⟨hc.2.1, hc.1, fun x => hc.2.2 x.symm⟩)]
    simp

theorem claim_C7_witness :
    alookup ((structure_differences H4ex H3ex).getD []) 's' = some 1 ∧
    (structure_differences H3ex H4ex).isSome := by
  have h := claim_C7 H3ex H4ex (by decide)
  refine ⟨?_, h.1⟩
  rw [h.2.2 's']
  decide
